import Mathlib

/-!
Shallow embedding of the crawl job engine of the data-crawler service
(`services/data-collection/crawler/src`): the `Crawler` class (its
`start`, `stop`, `processQueue`, `processUrl` methods), the supervisor
functions `startCrawlJob` / `stopCrawlJob` with their `activeCrawlers`
map, and the `POST /api/crawler/jobs` route handler's job construction.

The stateful JavaScript is embedded as explicit state passing: the
mutable fields of a `Crawler` instance become the record `CrawlerState`,
the MongoDB-backed stores become lists inside `SupervisorState`, and the
page fetcher (puppeteer) becomes a function `String → FetchOutcome`
supplied by the environment `CrawlEnv`.  A JavaScript `async` function
whose body is wrapped in `try/catch` never rejects its promise; such
functions return an `Option String` rejection channel that is `none` on
every path the embedding can take.
-/

/-- Job lifecycle states of a `CrawlJob` record. -/
inductive JobStatus where
  | pending
  | running
  | completed
  | failed
  | cancelled
  deriving DecidableEq, Repr

/-- A `CrawlJob` document: seed `url`, link-expansion bound `depth`,
page-count bound `maxPages`, pass-through `selectors`/`filters`, plus the
mutable `status`, `error` and `resultCount` fields. -/
structure CrawlJob where
  id : String
  url : String
  depth : Nat
  maxPages : Nat
  selectors : List (String × String) := []
  filters : List String := []
  status : JobStatus
  error : Option String := none
  resultCount : Nat := 0
  deriving DecidableEq, Repr

/-- A link object extracted from a page: `{ url, text, isInternal }`. -/
structure PageLink where
  url : String
  text : String
  isInternal : Bool
  deriving DecidableEq, Repr

/-- A `CrawlResult` document.  Success-only fields are `Option`-valued and
absent (`none`) on the error path of `processUrl`. -/
structure CrawlResult where
  jobId : String
  url : String
  depth : Nat
  parentUrl : Option String
  title : Option String := none
  text : Option String := none
  html : Option String := none
  links : List PageLink := []
  statusCode : Option Nat := none
  mimeType : Option String := none
  error : Option String := none
  deriving DecidableEq, Repr

/-- What the headless browser delivers for a page that produced a
response: HTTP status, content-type header, rendered content and the
extracted links. -/
structure FetchedPage where
  statusCode : Nat
  contentType : String
  title : String
  text : String
  html : String
  links : List PageLink
  deriving DecidableEq, Repr

/-- Outcome of `page.goto(url)`: the navigation may throw (timeout,
network error), return no response object, or return a response. -/
inductive FetchOutcome where
  | failed (msg : String)
  | noResponse
  | page (p : FetchedPage)
  deriving DecidableEq, Repr

/-- The engine's environment: the page fetcher, and whether the `n`-th
JobStore progress write succeeds (`n` is `pagesProcessed` at write time). -/
structure CrawlEnv where
  fetch : String → FetchOutcome
  progressWriteOk : Nat → Bool

/-- `s.includes(pat)` for a non-empty pattern, as used for the
`contentType.includes('text/html')` check. -/
def strIncludes (s pat : String) : Bool :=
  (s.splitOn pat).length != 1

/-- An entry of the work queue: `{ url, depth, parentUrl }`. -/
structure QueueEntry where
  url : String
  depth : Nat
  parentUrl : Option String
  deriving DecidableEq, Repr

/-- The mutable instance fields of a `Crawler` object, plus the list of
`CrawlResult` documents it has persisted (in persist order) and the last
progress triple `(pagesProcessed, pagesSuccessful, pagesFailed)` that was
successfully written to JobStore. -/
structure CrawlerState where
  visitedUrls : List String
  queue : List QueueEntry
  running : Bool
  browser : Bool
  pagesProcessed : Nat
  pagesSuccessful : Nat
  pagesFailed : Nat
  results : List CrawlResult
  persistedProgress : Option (Nat × Nat × Nat)
  deriving DecidableEq, Repr

/-- Modelled from the spec: the body of `CrawlJob.updateProgress` lives in
`src/models/CrawlJob.js`, which is not among the sources; per the spec the
progress write is best-effort ("failure to persist progress does not abort
the job" — it is logged and absorbed, never propagated to the caller).
When the JobStore write succeeds the persisted counters become the new
triple; when it fails the previously persisted triple remains. -/
def CrawlJob.updateProgress (writeOk : Bool) (prev : Option (Nat × Nat × Nat))
    (processed successful failed : Nat) : Option (Nat × Nat × Nat) :=
  if writeOk then some (processed, successful, failed) else prev

namespace Crawler

/-- `Crawler.processUrl(url, depth, parentUrl)`: navigates to the URL,
treats a missing response, a status other than 200 and a non-HTML
content-type as errors; always persists exactly one `CrawlResult`
(success or error) and returns it together with the truthiness of the
JavaScript return value (`result` object vs `null`). -/
def processUrl (fetch : String → FetchOutcome) (jobId url : String)
    (depth : Nat) (parentUrl : Option String) : CrawlResult × Bool :=
  let errResult : String → CrawlResult × Bool := fun msg =>
    ({ jobId := jobId, url := url, depth := depth, parentUrl := parentUrl,
       error := some msg }, false)
  match fetch url with
  | .failed msg => errResult msg
  | .noResponse => errResult "No response received"
  | .page p =>
    if p.statusCode != 200 then
      errResult ("HTTP status code: " ++ toString p.statusCode)
    else if !(strIncludes p.contentType "text/html") then
      errResult ("Unsupported content type: " ++ p.contentType)
    else
      ({ jobId := jobId, url := url, depth := depth, parentUrl := parentUrl,
         title := some p.title, text := some p.text, html := some p.html,
         links := p.links, statusCode := some p.statusCode,
         mimeType := some p.contentType }, true)

/-- The queue entries pushed by the link-expansion loop of
`processQueue`: every extracted link that is internal and not in the
visited set, enqueued at `depth + 1` with the current URL as parent. -/
def linkEntries (e : QueueEntry) (visited2 : List String)
    (links : List PageLink) : List QueueEntry :=
  (links.filter (fun l => l.isInternal && !(visited2.contains l.url))).map
    (fun l => { url := l.url, depth := e.depth + 1, parentUrl := some e.url })

/-- One non-skipped iteration of the `processQueue` loop body, for the
dequeued entry `e` and remaining queue `rest`: mark visited, bump
`pagesProcessed`, run `processUrl`, on success enqueue unvisited internal
links at `depth + 1` when `depth < job.depth`, bump the success/failure
counter, and perform the best-effort progress write. -/
def crawlIter (env : CrawlEnv) (job : CrawlJob) (e : QueueEntry)
    (rest : List QueueEntry) (s : CrawlerState) : CrawlerState :=
  let pr := processUrl env.fetch job.id e.url e.depth e.parentUrl
  let visited2 := e.url :: s.visitedUrls
  let newEntries : List QueueEntry :=
    if pr.2 && decide (e.depth < job.depth) then linkEntries e visited2 pr.1.links
    else []
  let processed2 := s.pagesProcessed + 1
  let successful2 := s.pagesSuccessful + (if pr.2 then 1 else 0)
  let failed2 := s.pagesFailed + (if pr.2 then 0 else 1)
  { visitedUrls := visited2
    queue := rest ++ newEntries
    running := s.running
    browser := s.browser
    pagesProcessed := processed2
    pagesSuccessful := successful2
    pagesFailed := failed2
    results := s.results ++ [pr.1]
    persistedProgress :=
      CrawlJob.updateProgress (env.progressWriteOk processed2)
        s.persistedProgress processed2 successful2 failed2 }

/-- `Crawler.processQueue()`: dequeue from the front while the queue is
non-empty, the running flag is set and `pagesProcessed < maxPages`; a
dequeued URL already in the visited set is skipped (`continue`). -/
def processQueue (env : CrawlEnv) (job : CrawlJob) (s : CrawlerState) : CrawlerState :=
  match hq : s.queue with
  | [] => s
  | e :: rest =>
    if hrun : s.running = true ∧ s.pagesProcessed < job.maxPages then
      if e.url ∈ s.visitedUrls then
        processQueue env job { s with queue := rest }
      else
        processQueue env job (crawlIter env job e rest s)
    else s
termination_by (job.maxPages - s.pagesProcessed, s.queue.length)
decreasing_by
  · apply Prod.Lex.right
    simp [hq]
  · apply Prod.Lex.left
    have h : (crawlIter env job e rest s).pagesProcessed = s.pagesProcessed + 1 := rfl
    omega

/-- The `Crawler` constructor's instance fields: empty visited set and
queue, running flag down, no browser, zeroed counters, nothing persisted. -/
def initState : CrawlerState :=
  { visitedUrls := []
    queue := []
    running := false
    browser := false
    pagesProcessed := 0
    pagesSuccessful := 0
    pagesFailed := 0
    results := []
    persistedProgress := none }

/-- The engine state at the top of `Crawler.start()`'s loop: running flag
set, browser launched, and the seed URL pushed at depth 0 with no parent. -/
def startState (job : CrawlJob) : CrawlerState :=
  { initState with
    running := true
    browser := true
    queue := [{ url := job.url, depth := 0, parentUrl := none }] }

/-- `Crawler.start()`: seed the queue, drain it with `processQueue`,
close the browser, set the terminal status (`completed` if the running
flag was never cleared, `cancelled` otherwise), store the result count
and save the job.  Returns the saved job and the final engine state. -/
def start (env : CrawlEnv) (job : CrawlJob) : CrawlJob × CrawlerState :=
  let s := processQueue env job (startState job)
  let s2 := { s with browser := false }
  ({ job with
      status := if s2.running then JobStatus.completed else JobStatus.cancelled
      resultCount := s2.results.length }, s2)

/-- `Crawler.stop()`: clear the running flag and close the browser. -/
def stop (s : CrawlerState) : CrawlerState :=
  { s with running := false, browser := false }

/-- The loop invariant of `processQueue` relating the visited set, the
work queue, the counters and the persisted results of one job's run. -/
structure LoopInv (job : CrawlJob) (s : CrawlerState) : Prop where
  processed_le : s.pagesProcessed ≤ job.maxPages
  results_count : s.results.length = s.pagesProcessed
  results_nodup : (s.results.map (fun r => r.url)).Nodup
  results_visited : ∀ r ∈ s.results, r.url ∈ s.visitedUrls
  queue_depth_le : ∀ e ∈ s.queue, e.depth ≤ job.depth
  results_depth_le : ∀ r ∈ s.results, r.depth ≤ job.depth
  queue_sorted : s.queue.Pairwise (fun a b => a.depth ≤ b.depth)
  queue_spread : ∀ a ∈ s.queue, ∀ b ∈ s.queue, a.depth ≤ b.depth + 1
  results_sorted : s.results.Pairwise (fun a b => a.depth ≤ b.depth)
  results_le_queue : ∀ r ∈ s.results, ∀ e ∈ s.queue, r.depth ≤ e.depth

/-- Forget the JobStore-persisted progress component of an engine state. -/
def eraseProgress (s : CrawlerState) : CrawlerState :=
  { s with persistedProgress := none }

/-- Ghost instrumentation for the FIFO enqueue-order property: a work
queue entry tagged with the index of the enqueue event that pushed it
(the seed is enqueue event 0). -/
structure TaggedEntry where
  entry : QueueEntry
  seq : Nat
  deriving DecidableEq, Repr

/-- A persisted result tagged with the enqueue index of the dequeued
entry it was persisted for. -/
structure TaggedResult where
  result : CrawlResult
  seq : Nat
  deriving DecidableEq, Repr

/-- The engine state of `processQueue` with ghost enqueue indices on the
queue entries and the results, plus the next free index; erasing the
indices (`GhostState.erase`) recovers the `CrawlerState` of the real
loop. -/
structure GhostState where
  visitedUrls : List String
  queue : List TaggedEntry
  running : Bool
  browser : Bool
  pagesProcessed : Nat
  pagesSuccessful : Nat
  pagesFailed : Nat
  results : List TaggedResult
  persistedProgress : Option (Nat × Nat × Nat)
  nextSeq : Nat
  deriving DecidableEq, Repr

/-- Drop the ghost indices. -/
def GhostState.erase (g : GhostState) : CrawlerState :=
  { visitedUrls := g.visitedUrls
    queue := g.queue.map (fun t => t.entry)
    running := g.running
    browser := g.browser
    pagesProcessed := g.pagesProcessed
    pagesSuccessful := g.pagesSuccessful
    pagesFailed := g.pagesFailed
    results := g.results.map (fun t => t.result)
    persistedProgress := g.persistedProgress }

/-- Tag a batch of entries pushed at the back with consecutive enqueue
indices starting at `n`. -/
def tagFrom (n : Nat) : List QueueEntry → List TaggedEntry
  | [] => []
  | e :: es => { entry := e, seq := n } :: tagFrom (n + 1) es

/-- The entries the loop body pushes for the dequeued entry `te` (same
if-condition and `linkEntries` call as in `crawlIter`). -/
def ghostNewEntries (env : CrawlEnv) (job : CrawlJob) (te : TaggedEntry)
    (g : GhostState) : List QueueEntry :=
  if (processUrl env.fetch job.id te.entry.url te.entry.depth te.entry.parentUrl).2 &&
      decide (te.entry.depth < job.depth) then
    linkEntries te.entry (te.entry.url :: g.visitedUrls)
      (processUrl env.fetch job.id te.entry.url te.entry.depth te.entry.parentUrl).1.links
  else []

/-- `crawlIter` on the ghost-instrumented state: identical computation,
except that the persisted result carries the dequeued entry's enqueue
index and the newly pushed links receive the next free indices. -/
def ghostIter (env : CrawlEnv) (job : CrawlJob) (te : TaggedEntry)
    (rest : List TaggedEntry) (g : GhostState) : GhostState :=
  let pr := processUrl env.fetch job.id te.entry.url te.entry.depth te.entry.parentUrl
  let newEntries := ghostNewEntries env job te g
  let processed2 := g.pagesProcessed + 1
  let successful2 := g.pagesSuccessful + (if pr.2 then 1 else 0)
  let failed2 := g.pagesFailed + (if pr.2 then 0 else 1)
  { visitedUrls := te.entry.url :: g.visitedUrls
    queue := rest ++ tagFrom g.nextSeq newEntries
    running := g.running
    browser := g.browser
    pagesProcessed := processed2
    pagesSuccessful := successful2
    pagesFailed := failed2
    results := g.results ++ [{ result := pr.1, seq := te.seq }]
    persistedProgress :=
      CrawlJob.updateProgress (env.progressWriteOk processed2)
        g.persistedProgress processed2 successful2 failed2
    nextSeq := g.nextSeq + newEntries.length }

/-- `processQueue` on the ghost-instrumented state: same guards, same
FIFO discipline (`shift` from the front, `push` at the back), same
skip-if-visited. -/
def ghostQueue (env : CrawlEnv) (job : CrawlJob) (g : GhostState) : GhostState :=
  match hq : g.queue with
  | [] => g
  | te :: rest =>
    if hrun : g.running = true ∧ g.pagesProcessed < job.maxPages then
      if te.entry.url ∈ g.visitedUrls then
        ghostQueue env job { g with queue := rest }
      else
        ghostQueue env job (ghostIter env job te rest g)
    else g
termination_by (job.maxPages - g.pagesProcessed, g.queue.length)
decreasing_by
  · apply Prod.Lex.right
    simp [hq]
  · apply Prod.Lex.left
    have h : (ghostIter env job te rest g).pagesProcessed = g.pagesProcessed + 1 := rfl
    omega

/-- The ghost state at the top of the loop: the seed carries enqueue
index 0 and the next free index is 1. -/
def ghostStartState (job : CrawlJob) : GhostState :=
  { visitedUrls := []
    queue := [{ entry := { url := job.url, depth := 0, parentUrl := none }, seq := 0 }]
    running := true
    browser := true
    pagesProcessed := 0
    pagesSuccessful := 0
    pagesFailed := 0
    results := []
    persistedProgress := none
    nextSeq := 1 }

/-- Ghost invariant: enqueue indices grow strictly along the FIFO queue
and stay below the next free index, and the persisted results carry
strictly increasing indices, all below every index still queued. -/
structure GhostInv (g : GhostState) : Prop where
  queue_seq_sorted : g.queue.Pairwise (fun a b => a.seq < b.seq)
  queue_seq_lt : ∀ t ∈ g.queue, t.seq < g.nextSeq
  results_seq_sorted : g.results.Pairwise (fun a b => a.seq < b.seq)
  results_lt_queue : ∀ r ∈ g.results, ∀ t ∈ g.queue, r.seq < t.seq
  results_seq_lt : ∀ r ∈ g.results, r.seq < g.nextSeq

end Crawler

/-- A numeric `req.body` field: `none` for undefined/null; `none` and
`some 0` are falsy, so `x || dflt` yields the default for both. -/
def jsNumOr (x : Option Nat) (dflt : Nat) : Nat :=
  match x with
  | none => dflt
  | some n => if n = 0 then dflt else n

/-- The `POST /api/crawler/jobs` handler's job construction: reject a
missing (falsy) url with a 400, otherwise build a `pending` job with
`depth: depth || 2` and `maxPages: maxPages || 100`; `newId` is the
database-assigned id. -/
def createCrawlJobRequest (newId url : String) (depth maxPages : Option Nat) :
    Option CrawlJob :=
  if url = "" then none
  else
    some
      { id := newId
        url := url
        depth := jsNumOr depth 2
        maxPages := jsNumOr maxPages 100
        status := JobStatus.pending }

/-- The supervisor-visible shared state: the `CrawlJob` collection
(JobStore), the keys of the module-level `activeCrawlers` map, and the
`CrawlResult` collection (ResultStore) in persist order. -/
structure SupervisorState where
  jobs : List (String × CrawlJob)
  activeCrawlers : List String
  resultStore : List CrawlResult
  deriving DecidableEq, Repr

/-- `CrawlJob.findById`. -/
def findJobById (jobs : List (String × CrawlJob)) (jobId : String) : Option CrawlJob :=
  (jobs.find? (fun p => p.1 == jobId)).map (fun p => p.2)

/-- `job.save()`: write back the document under its id. -/
def saveJobById (jobs : List (String × CrawlJob)) (jobId : String)
    (job : CrawlJob) : List (String × CrawlJob) :=
  jobs.map (fun p => if p.1 == jobId then (p.1, job) else p)

/-- `Map.set`: register a key (keys are unique). -/
def mapSetKey (keys : List String) (k : String) : List String :=
  if keys.contains k then keys else k :: keys

/-- `Map.delete`: drop a key. -/
def mapDeleteKey (keys : List String) (k : String) : List String :=
  keys.filter (fun x => !(x == k))

/-- `startCrawlJob(jobId)`: load the job; a missing job or a job whose
status is not `pending` is logged and the function returns normally; a
pending job is set `running`, saved, registered in `activeCrawlers`, and
its crawler is started.  The whole body is wrapped in `try/catch`, so the
returned promise never rejects: the second component is the rejection
channel and is `none` on every path. -/
def startCrawlJob (env : CrawlEnv) (st : SupervisorState) (jobId : String) :
    SupervisorState × Option String :=
  match findJobById st.jobs jobId with
  | none => (st, none)
  | some job =>
    if job.status != JobStatus.pending then (st, none)
    else
      let job1 := { job with status := JobStatus.running }
      let st1 :=
        { st with
          jobs := saveJobById st.jobs jobId job1
          activeCrawlers := mapSetKey st.activeCrawlers jobId }
      let r := Crawler.start env job1
      ({ st1 with
          jobs := saveJobById st1.jobs jobId r.1
          resultStore := st1.resultStore ++ r.2.results }, none)

/-- `stopCrawlJob(jobId)`: if an active crawler is registered for the id,
stop it and delete it from the map; otherwise log a warning and return.
The body is wrapped in `try/catch`, so the rejection channel is `none`
on every path. -/
def stopCrawlJob (st : SupervisorState) (jobId : String) :
    SupervisorState × Option String :=
  if st.activeCrawlers.contains jobId then
    ({ st with activeCrawlers := mapDeleteKey st.activeCrawlers jobId }, none)
  else (st, none)

/-- A fetcher environment whose navigations never produce a response
object; every progress write succeeds. -/
def envNoResp : CrawlEnv :=
  { fetch := fun _ => FetchOutcome.noResponse
    progressWriteOk := fun _ => true }

/-- A response page carrying HTTP status 500. -/
def page500 : FetchedPage :=
  { statusCode := 500
    contentType := "text/html; charset=utf-8"
    title := ""
    text := ""
    html := ""
    links := [] }

/-- A fetcher environment whose navigations always answer HTTP 500. -/
def envServerError : CrawlEnv :=
  { fetch := fun _ => FetchOutcome.page page500
    progressWriteOk := fun _ => true }

/-- A pending job fixture. -/
def jobP : CrawlJob :=
  { id := "j1"
    url := "https://seed.test/"
    depth := 2
    maxPages := 10
    status := JobStatus.pending }

/-- A depth-0 pending job fixture. -/
def jobD0 : CrawlJob :=
  { id := "j0"
    url := "https://seed.test/"
    depth := 0
    maxPages := 1
    status := JobStatus.pending }

/-- A supervisor state holding the pending fixture job. -/
def stPending : SupervisorState :=
  { jobs := [("j1", jobP)]
    activeCrawlers := []
    resultStore := [] }

/-- A supervisor state whose only job is already `running`. -/
def stRunning : SupervisorState :=
  { jobs := [("j1", { jobP with status := JobStatus.running })]
    activeCrawlers := []
    resultStore := [] }

/-- An empty supervisor state. -/
def stEmpty : SupervisorState :=
  { jobs := []
    activeCrawlers := []
    resultStore := [] }

/-- An engine state fixture whose queue head is already visited. -/
def sVisitedHead : CrawlerState :=
  { Crawler.initState with
    running := true
    visitedUrls := ["https://seed.test/"]
    queue := [{ url := "https://seed.test/", depth := 0, parentUrl := none }] }

/-- The failed seed result that a no-response run of the depth-0 fixture
job persists. -/
def resD0 : CrawlResult :=
  { jobId := "j0"
    url := "https://seed.test/"
    depth := 0
    parentUrl := none
    error := some "No response received" }

namespace Crawler

@[simp] theorem crawlIter_running (env : CrawlEnv) (job : CrawlJob) (e : QueueEntry)
    (rest : List QueueEntry) (s : CrawlerState) :
    (crawlIter env job e rest s).running = s.running := rfl

@[simp] theorem crawlIter_browser (env : CrawlEnv) (job : CrawlJob) (e : QueueEntry)
    (rest : List QueueEntry) (s : CrawlerState) :
    (crawlIter env job e rest s).browser = s.browser := rfl

@[simp] theorem crawlIter_visitedUrls (env : CrawlEnv) (job : CrawlJob) (e : QueueEntry)
    (rest : List QueueEntry) (s : CrawlerState) :
    (crawlIter env job e rest s).visitedUrls = e.url :: s.visitedUrls := rfl

@[simp] theorem crawlIter_pagesProcessed (env : CrawlEnv) (job : CrawlJob) (e : QueueEntry)
    (rest : List QueueEntry) (s : CrawlerState) :
    (crawlIter env job e rest s).pagesProcessed = s.pagesProcessed + 1 := rfl

@[simp] theorem crawlIter_pagesSuccessful (env : CrawlEnv) (job : CrawlJob) (e : QueueEntry)
    (rest : List QueueEntry) (s : CrawlerState) :
    (crawlIter env job e rest s).pagesSuccessful =
      s.pagesSuccessful +
        (if (processUrl env.fetch job.id e.url e.depth e.parentUrl).2 then 1 else 0) := rfl

@[simp] theorem crawlIter_pagesFailed (env : CrawlEnv) (job : CrawlJob) (e : QueueEntry)
    (rest : List QueueEntry) (s : CrawlerState) :
    (crawlIter env job e rest s).pagesFailed =
      s.pagesFailed +
        (if (processUrl env.fetch job.id e.url e.depth e.parentUrl).2 then 0 else 1) := rfl

@[simp] theorem crawlIter_results (env : CrawlEnv) (job : CrawlJob) (e : QueueEntry)
    (rest : List QueueEntry) (s : CrawlerState) :
    (crawlIter env job e rest s).results =
      s.results ++ [(processUrl env.fetch job.id e.url e.depth e.parentUrl).1] := rfl

@[simp] theorem crawlIter_queue (env : CrawlEnv) (job : CrawlJob) (e : QueueEntry)
    (rest : List QueueEntry) (s : CrawlerState) :
    (crawlIter env job e rest s).queue =
      rest ++
        (if (processUrl env.fetch job.id e.url e.depth e.parentUrl).2 && decide (e.depth < job.depth) then
          linkEntries e (e.url :: s.visitedUrls)
            (processUrl env.fetch job.id e.url e.depth e.parentUrl).1.links
        else []) := rfl

theorem processUrl_url (fetch : String → FetchOutcome) (jobId url : String)
    (depth : Nat) (parentUrl : Option String) :
    (processUrl fetch jobId url depth parentUrl).1.url = url := by
  cases hf : fetch url <;>
    simp only [processUrl, hf] <;>
    first
      | rfl
      | (split <;> first | rfl | (split <;> rfl))

theorem processUrl_depth (fetch : String → FetchOutcome) (jobId url : String)
    (depth : Nat) (parentUrl : Option String) :
    (processUrl fetch jobId url depth parentUrl).1.depth = depth := by
  cases hf : fetch url <;>
    simp only [processUrl, hf] <;>
    first
      | rfl
      | (split <;> first | rfl | (split <;> rfl))

/-- A response with a status other than 200 makes `processUrl` persist a
failed result carrying the status-code error message. -/
theorem processUrl_non2xx (fetch : String → FetchOutcome) (jobId url : String)
    (depth : Nat) (parentUrl : Option String) (p : FetchedPage)
    (hf : fetch url = FetchOutcome.page p) (hs : p.statusCode ≠ 200) :
    processUrl fetch jobId url depth parentUrl =
      ({ jobId := jobId, url := url, depth := depth, parentUrl := parentUrl,
         error := some ("HTTP status code: " ++ toString p.statusCode) }, false) := by
  unfold processUrl
  rw [hf]
  simp [hs]

theorem linkEntries_depth (e : QueueEntry) (visited2 : List String)
    (links : List PageLink) :
    ∀ x ∈ linkEntries e visited2 links, x.depth = e.depth + 1 := by
  intro x hx
  simp only [linkEntries, List.mem_map] at hx
  obtain ⟨l, _, rfl⟩ := hx
  rfl

theorem processQueue_nil (env : CrawlEnv) (job : CrawlJob) (s : CrawlerState)
    (h : s.queue = []) : processQueue env job s = s := by
  rw [processQueue]
  split
  · rfl
  · rename_i e rest hq
    rw [h] at hq
    exact absurd hq (by simp)

theorem processQueue_halt (env : CrawlEnv) (job : CrawlJob) (s : CrawlerState)
    (e : QueueEntry) (rest : List QueueEntry) (h : s.queue = e :: rest)
    (hrun : ¬(s.running = true ∧ s.pagesProcessed < job.maxPages)) :
    processQueue env job s = s := by
  rw [processQueue]
  split
  · rfl
  · rename_i e' rest' hq
    rw [h] at hq
    cases hq
    rw [dif_neg hrun]

theorem processQueue_skip (env : CrawlEnv) (job : CrawlJob) (s : CrawlerState)
    (e : QueueEntry) (rest : List QueueEntry) (h : s.queue = e :: rest)
    (hrun : s.running = true ∧ s.pagesProcessed < job.maxPages)
    (hvis : e.url ∈ s.visitedUrls) :
    processQueue env job s = processQueue env job { s with queue := rest } := by
  rw [processQueue]
  split
  · rename_i hq
    rw [h] at hq
    exact absurd hq.symm (by simp)
  · rename_i e' rest' hq
    rw [h] at hq
    cases hq
    rw [dif_pos hrun, if_pos hvis]

theorem processQueue_proc (env : CrawlEnv) (job : CrawlJob) (s : CrawlerState)
    (e : QueueEntry) (rest : List QueueEntry) (h : s.queue = e :: rest)
    (hrun : s.running = true ∧ s.pagesProcessed < job.maxPages)
    (hvis : e.url ∉ s.visitedUrls) :
    processQueue env job s = processQueue env job (crawlIter env job e rest s) := by
  rw [processQueue]
  split
  · rename_i hq
    rw [h] at hq
    exact absurd hq.symm (by simp)
  · rename_i e' rest' hq
    rw [h] at hq
    cases hq
    rw [dif_pos hrun, if_neg hvis]

theorem LoopInv.tail (job : CrawlJob) (s : CrawlerState) (e : QueueEntry)
    (rest : List QueueEntry) (inv : LoopInv job s) (hq : s.queue = e :: rest) :
    LoopInv job { s with queue := rest } := by
  have hmem : ∀ x ∈ rest, x ∈ s.queue := by
    intro x hx
    rw [hq]
    exact List.mem_cons_of_mem _ hx
  refine ⟨inv.processed_le, inv.results_count, inv.results_nodup, inv.results_visited,
    ?_, inv.results_depth_le, ?_, ?_, inv.results_sorted, ?_⟩
  · intro x hx
    exact inv.queue_depth_le x (hmem x hx)
  · have := inv.queue_sorted
    rw [hq] at this
    exact (List.pairwise_cons.mp this).2
  · intro a ha b hb
    exact inv.queue_spread a (hmem a ha) b (hmem b hb)
  · intro r hr x hx
    exact inv.results_le_queue r hr x (hmem x hx)

/-- Core step lemma: one processed iteration (dequeue `e`, persist one
result `r` for it at the same url/depth, enqueue entries `NE` at depth
`e.depth + 1` bounded by `job.depth`) preserves the loop invariant. -/
theorem LoopInv.step (job : CrawlJob) (e : QueueEntry) (rest : List QueueEntry)
    (s t : CrawlerState) (NE : List QueueEntry) (r : CrawlResult)
    (inv : LoopInv job s) (hq : s.queue = e :: rest)
    (hlt : s.pagesProcessed < job.maxPages) (hvis : e.url ∉ s.visitedUrls)
    (ht_visited : t.visitedUrls = e.url :: s.visitedUrls)
    (ht_queue : t.queue = rest ++ NE)
    (ht_processed : t.pagesProcessed = s.pagesProcessed + 1)
    (ht_results : t.results = s.results ++ [r])
    (hr_url : r.url = e.url) (hr_depth : r.depth = e.depth)
    (hNE_depth : ∀ x ∈ NE, x.depth = e.depth + 1)
    (hNE_le : ∀ x ∈ NE, x.depth ≤ job.depth) :
    LoopInv job t := by
  have he : e ∈ s.queue := by
    rw [hq]
    exact List.mem_cons_self _ _
  have hrest : ∀ x ∈ rest, x ∈ s.queue := by
    intro x hx
    rw [hq]
    exact List.mem_cons_of_mem _ hx
  have hsorted_cons := inv.queue_sorted
  rw [hq, List.pairwise_cons] at hsorted_cons
  have hle_rest : ∀ x ∈ rest, e.depth ≤ x.depth := hsorted_cons.1
  have hrest_sorted : rest.Pairwise (fun a b => a.depth ≤ b.depth) := hsorted_cons.2
  have he_depth_le : e.depth ≤ job.depth := inv.queue_depth_le e he
  constructor
  · rw [ht_processed]
    omega
  · rw [ht_results, ht_processed, List.length_append, inv.results_count]
    rfl
  · rw [ht_results, List.map_append]
    refine inv.results_nodup.append (by simp) ?_
    intro a ha hb
    simp only [List.map_cons, List.map_nil, List.mem_singleton] at hb
    subst hb
    simp only [List.mem_map] at ha
    obtain ⟨r', hr', hru⟩ := ha
    have hmem := inv.results_visited r' hr'
    rw [hru, hr_url] at hmem
    exact hvis hmem
  · rw [ht_results, ht_visited]
    intro r' hr'
    rcases List.mem_append.mp hr' with h | h
    · exact List.mem_cons_of_mem _ (inv.results_visited r' h)
    · simp only [List.mem_singleton] at h
      subst h
      rw [hr_url]
      exact List.mem_cons_self _ _
  · rw [ht_queue]
    intro x hx
    rcases List.mem_append.mp hx with h | h
    · exact inv.queue_depth_le x (hrest x h)
    · exact hNE_le x h
  · rw [ht_results]
    intro r' hr'
    rcases List.mem_append.mp hr' with h | h
    · exact inv.results_depth_le r' h
    · simp only [List.mem_singleton] at h
      subst h
      rw [hr_depth]
      exact he_depth_le
  · rw [ht_queue, List.pairwise_append]
    refine ⟨hrest_sorted, ?_, ?_⟩
    · apply List.pairwise_of_forall_mem_list
      intro a ha b hb
      rw [hNE_depth a ha, hNE_depth b hb]
    · intro a ha b hb
      have h1 := inv.queue_spread a (hrest a ha) e he
      have h2 := hNE_depth b hb
      omega
  · rw [ht_queue]
    intro a ha b hb
    rcases List.mem_append.mp ha with ha' | ha' <;>
      rcases List.mem_append.mp hb with hb' | hb'
    · exact inv.queue_spread a (hrest a ha') b (hrest b hb')
    · have h1 := inv.queue_spread a (hrest a ha') e he
      have h2 := hNE_depth b hb'
      omega
    · have h1 := hle_rest b hb'
      have h2 := hNE_depth a ha'
      omega
    · have h1 := hNE_depth a ha'
      have h2 := hNE_depth b hb'
      omega
  · rw [ht_results, List.pairwise_append]
    refine ⟨inv.results_sorted, by simp, ?_⟩
    intro a ha b hb
    simp only [List.mem_singleton] at hb
    subst hb
    rw [hr_depth]
    exact inv.results_le_queue a ha e he
  · rw [ht_results, ht_queue]
    intro r' hr' x hx
    rcases List.mem_append.mp hr' with h | h <;>
      rcases List.mem_append.mp hx with h' | h'
    · exact inv.results_le_queue r' h x (hrest x h')
    · have h1 := inv.results_le_queue r' h e he
      have h2 := hNE_depth x h'
      omega
    · simp only [List.mem_singleton] at h
      subst h
      rw [hr_depth]
      exact hle_rest x h'
    · simp only [List.mem_singleton] at h
      subst h
      have h2 := hNE_depth x h'
      omega

/-- A processed iteration of the loop body preserves the invariant. -/
theorem crawlIter_inv (env : CrawlEnv) (job : CrawlJob) (e : QueueEntry)
    (rest : List QueueEntry) (s : CrawlerState)
    (inv : LoopInv job s) (hq : s.queue = e :: rest)
    (hlt : s.pagesProcessed < job.maxPages)
    (hvis : e.url ∉ s.visitedUrls) :
    LoopInv job (crawlIter env job e rest s) := by
  refine LoopInv.step job e rest s _ _
    (processUrl env.fetch job.id e.url e.depth e.parentUrl).1
    inv hq hlt hvis (crawlIter_visitedUrls env job e rest s)
    (crawlIter_queue env job e rest s) (crawlIter_pagesProcessed env job e rest s)
    (crawlIter_results env job e rest s)
    (processUrl_url env.fetch job.id e.url e.depth e.parentUrl)
    (processUrl_depth env.fetch job.id e.url e.depth e.parentUrl) ?_ ?_
  · intro x hx
    split at hx
    · exact linkEntries_depth _ _ _ x hx
    · exact absurd hx (List.not_mem_nil x)
  · intro x hx
    split at hx
    · rename_i hcond
      simp only [Bool.and_eq_true, decide_eq_true_eq] at hcond
      have := linkEntries_depth _ _ _ x hx
      omega
    · exact absurd hx (List.not_mem_nil x)

/-- `processQueue` preserves the loop invariant. -/
theorem processQueue_inv (env : CrawlEnv) (job : CrawlJob) (s : CrawlerState)
    (inv : LoopInv job s) : LoopInv job (processQueue env job s) := by
  induction s using processQueue.induct env job with
  | case1 s hq =>
    rw [processQueue_nil env job s hq]
    exact inv
  | case2 s e rest hq hrun hvis ih =>
    rw [processQueue_skip env job s e rest hq hrun hvis]
    exact ih (inv.tail job s e rest hq)
  | case3 s e rest hq hrun hvis ih =>
    rw [processQueue_proc env job s e rest hq hrun hvis]
    exact ih (crawlIter_inv env job e rest s inv hq hrun.2 hvis)
  | case4 s e rest hq hrun =>
    rw [processQueue_halt env job s e rest hq hrun]
    exact inv

/-- `processQueue` never touches the running flag. -/
theorem processQueue_running (env : CrawlEnv) (job : CrawlJob) (s : CrawlerState) :
    (processQueue env job s).running = s.running := by
  induction s using processQueue.induct env job with
  | case1 s hq => rw [processQueue_nil env job s hq]
  | case2 s e rest hq hrun hvis ih =>
    rw [processQueue_skip env job s e rest hq hrun hvis]
    exact ih
  | case3 s e rest hq hrun hvis ih =>
    rw [processQueue_proc env job s e rest hq hrun hvis]
    rw [ih, crawlIter_running]
  | case4 s e rest hq hrun =>
    rw [processQueue_halt env job s e rest hq hrun]

/-- The invariant holds at the top of the loop. -/
theorem startState_inv (job : CrawlJob) : LoopInv job (startState job) := by
  constructor <;> simp [startState, initState]

end Crawler

namespace Crawler

theorem eraseProgress_eq_iff (s₁ s₂ : CrawlerState) :
    eraseProgress s₁ = eraseProgress s₂ ↔
      (s₁.visitedUrls = s₂.visitedUrls ∧ s₁.queue = s₂.queue ∧
       s₁.running = s₂.running ∧ s₁.browser = s₂.browser ∧
       s₁.pagesProcessed = s₂.pagesProcessed ∧
       s₁.pagesSuccessful = s₂.pagesSuccessful ∧
       s₁.pagesFailed = s₂.pagesFailed ∧ s₁.results = s₂.results) := by
  cases s₁
  cases s₂
  simp [eraseProgress]

/-- The loop body computes everything except the persisted-progress
component independently of the progress-write outcomes. -/
theorem crawlIter_eraseProgress (env₁ env₂ : CrawlEnv) (job : CrawlJob)
    (e : QueueEntry) (rest : List QueueEntry) (s₁ s₂ : CrawlerState)
    (hf : env₁.fetch = env₂.fetch) (hs : eraseProgress s₁ = eraseProgress s₂) :
    eraseProgress (crawlIter env₁ job e rest s₁) =
      eraseProgress (crawlIter env₂ job e rest s₂) := by
  obtain ⟨h1, h2, h3, h4, h5, h6, h7, h8⟩ := (eraseProgress_eq_iff s₁ s₂).mp hs
  rw [eraseProgress_eq_iff]
  refine ⟨?_, ?_, ?_, ?_, ?_, ?_, ?_, ?_⟩ <;>
    simp only [crawlIter_visitedUrls, crawlIter_queue, crawlIter_running,
      crawlIter_browser, crawlIter_pagesProcessed, crawlIter_pagesSuccessful,
      crawlIter_pagesFailed, crawlIter_results, hf, h1, h3, h4, h5, h6, h7, h8]

/-- The traversal outcome, up to the persisted-progress component, does
not depend on which progress writes succeed. -/
theorem processQueue_eraseProgress (env₁ env₂ : CrawlEnv) (job : CrawlJob)
    (hf : env₁.fetch = env₂.fetch) :
    ∀ s₁ s₂ : CrawlerState, eraseProgress s₁ = eraseProgress s₂ →
      eraseProgress (processQueue env₁ job s₁) =
        eraseProgress (processQueue env₂ job s₂) := by
  intro s₁
  induction s₁ using processQueue.induct env₁ job with
  | case1 s hq =>
    intro s₂ hs
    obtain ⟨h1, h2, h3, h4, h5, h6, h7, h8⟩ := (eraseProgress_eq_iff s s₂).mp hs
    rw [processQueue_nil env₁ job s hq, processQueue_nil env₂ job s₂ (by rw [← h2]; exact hq)]
    exact hs
  | case2 s e rest hq hrun hvis ih =>
    intro s₂ hs
    obtain ⟨h1, h2, h3, h4, h5, h6, h7, h8⟩ := (eraseProgress_eq_iff s s₂).mp hs
    rw [processQueue_skip env₁ job s e rest hq hrun hvis,
      processQueue_skip env₂ job s₂ e rest (by rw [← h2]; exact hq)
        (by rw [← h3, ← h5]; exact hrun) (by rw [← h1]; exact hvis)]
    apply ih
    rw [eraseProgress_eq_iff]
    exact ⟨h1, rfl, h3, h4, h5, h6, h7, h8⟩
  | case3 s e rest hq hrun hvis ih =>
    intro s₂ hs
    obtain ⟨h1, h2, h3, h4, h5, h6, h7, h8⟩ := (eraseProgress_eq_iff s s₂).mp hs
    rw [processQueue_proc env₁ job s e rest hq hrun hvis,
      processQueue_proc env₂ job s₂ e rest (by rw [← h2]; exact hq)
        (by rw [← h3, ← h5]; exact hrun) (by rw [← h1]; exact hvis)]
    exact ih (crawlIter env₂ job e rest s₂)
      (crawlIter_eraseProgress env₁ env₂ job e rest s s₂ hf hs)
  | case4 s e rest hq hrun =>
    intro s₂ hs
    obtain ⟨h1, h2, h3, h4, h5, h6, h7, h8⟩ := (eraseProgress_eq_iff s s₂).mp hs
    rw [processQueue_halt env₁ job s e rest hq hrun,
      processQueue_halt env₂ job s₂ e rest (by rw [← h2]; exact hq)
        (by rw [← h3, ← h5]; exact hrun)]
    exact hs

end Crawler

@[simp] theorem start_snd_results (env : CrawlEnv) (job : CrawlJob) :
    (Crawler.start env job).2.results =
      (Crawler.processQueue env job (Crawler.startState job)).results := rfl

@[simp] theorem start_snd_pagesProcessed (env : CrawlEnv) (job : CrawlJob) :
    (Crawler.start env job).2.pagesProcessed =
      (Crawler.processQueue env job (Crawler.startState job)).pagesProcessed := rfl

@[simp] theorem start_snd_pagesSuccessful (env : CrawlEnv) (job : CrawlJob) :
    (Crawler.start env job).2.pagesSuccessful =
      (Crawler.processQueue env job (Crawler.startState job)).pagesSuccessful := rfl

@[simp] theorem start_snd_pagesFailed (env : CrawlEnv) (job : CrawlJob) :
    (Crawler.start env job).2.pagesFailed =
      (Crawler.processQueue env job (Crawler.startState job)).pagesFailed := rfl

@[simp] theorem start_snd_queue (env : CrawlEnv) (job : CrawlJob) :
    (Crawler.start env job).2.queue =
      (Crawler.processQueue env job (Crawler.startState job)).queue := rfl

/-- In this sequential embedding nothing clears the running flag during a
run, so `Crawler.start` always reaches the `completed` branch. -/
theorem start_fst_status (env : CrawlEnv) (job : CrawlJob) :
    (Crawler.start env job).1.status = JobStatus.completed := by
  have h : (Crawler.processQueue env job (Crawler.startState job)).running = true := by
    rw [Crawler.processQueue_running]
    rfl
  simp [Crawler.start, h]

/-- The invariant holds for the final state of every run. -/
theorem start_inv (env : CrawlEnv) (job : CrawlJob) :
    Crawler.LoopInv job (Crawler.processQueue env job (Crawler.startState job)) :=
  Crawler.processQueue_inv env job (Crawler.startState job) (Crawler.startState_inv job)

theorem mapSetKey_contains (keys : List String) (k : String) :
    (mapSetKey keys k).contains k = true := by
  unfold mapSetKey
  split
  · assumption
  · simp

theorem mapDeleteKey_contains (keys : List String) (k : String) :
    (mapDeleteKey keys k).contains k = false := by
  unfold mapDeleteKey
  simp

/-- Claim C1 (with `CrawlJob.updateProgress` modelled from the spec as
best-effort): a failure of the mid-loop progress-counter write to
JobStore does not abort the job — the traversal outcome (persisted
results, pages processed, final status) is identical to a run in which
every progress write succeeds, and the job never transitions to
`failed`. -/
theorem claim_progress_write_best_effort (env : CrawlEnv) (job : CrawlJob) :
    (Crawler.start env job).1.status ≠ JobStatus.failed ∧
    (Crawler.start env job).1.status =
      (Crawler.start { env with progressWriteOk := fun _ => true } job).1.status ∧
    (Crawler.start env job).2.results =
      (Crawler.start { env with progressWriteOk := fun _ => true } job).2.results ∧
    (Crawler.start env job).2.pagesProcessed =
      (Crawler.start { env with progressWriteOk := fun _ => true } job).2.pagesProcessed := by
  have hind := Crawler.processQueue_eraseProgress env
    { env with progressWriteOk := fun _ => true } job rfl
    (Crawler.startState job) (Crawler.startState job) rfl
  obtain ⟨h1, h2, h3, h4, h5, h6, h7, h8⟩ := (Crawler.eraseProgress_eq_iff _ _).mp hind
  refine ⟨?_, ?_, ?_, ?_⟩
  · rw [start_fst_status]
    decide
  · rw [start_fst_status, start_fst_status]
  · rw [start_snd_results, start_snd_results]
    exact h8
  · rw [start_snd_pagesProcessed, start_snd_pagesProcessed]
    exact h5

/-- Claim C2: for every job with `maxPages = N`, after the traversal
loop terminates `pagesProcessed` is at most `N`, and the number of
CrawlResults persisted for the job (failed and successful combined) is
at most `N`. -/
theorem claim_page_limit_bound (env : CrawlEnv) (job : CrawlJob) :
    (Crawler.start env job).2.pagesProcessed ≤ job.maxPages ∧
    (Crawler.start env job).2.results.length ≤ job.maxPages := by
  have inv := start_inv env job
  refine ⟨inv.processed_le, ?_⟩
  rw [start_snd_results, inv.results_count]
  exact inv.processed_le

/-- Claim C3: for every job with `maxDepth = D` (the job's `depth`
field), no persisted CrawlResult has a depth greater than `D`: links are
enqueued at `depth + 1` only when `depth < D`, the seed enters at depth
0, and depth is never checked at dequeue time. -/
theorem claim_depth_bound (env : CrawlEnv) (job : CrawlJob) :
    ∀ r ∈ (Crawler.start env job).2.results, r.depth ≤ job.depth := by
  intro r hr
  rw [start_snd_results] at hr
  exact (start_inv env job).results_depth_le r hr

/-- Claim C4: exactly one CrawlResult is persisted per attempted dequeue
(`results.length` equals `pagesProcessed` after every run), each URL
appears as the `url` of at most one CrawlResult of the job, and a
dequeued URL that is already in the visited set is dropped silently (the
loop continues on the remaining queue with no result created and no
counter incremented). -/
theorem claim_result_per_attempt_dedup (env : CrawlEnv) (job : CrawlJob) :
    ((Crawler.start env job).2.results.map (fun r => r.url)).Nodup ∧
    (Crawler.start env job).2.results.length = (Crawler.start env job).2.pagesProcessed ∧
    (∀ s : CrawlerState, ∀ e : QueueEntry, ∀ rest : List QueueEntry,
      s.queue = e :: rest → e.url ∈ s.visitedUrls → s.running = true →
      s.pagesProcessed < job.maxPages →
      Crawler.processQueue env job s = Crawler.processQueue env job { s with queue := rest }) := by
  have inv := start_inv env job
  refine ⟨inv.results_nodup, ?_, ?_⟩
  · rw [start_snd_results, start_snd_pagesProcessed, inv.results_count]
  · intro s e rest hq hvis hrunning hlt
    exact Crawler.processQueue_skip env job s e rest hq ⟨hrunning, hlt⟩ hvis

/-- Claim C6: for a job whose seed fetch answers with a non-2xx HTTP
status, the error is recovered locally: the job completes (status
`completed`, not `failed`) with exactly one persisted CrawlResult
carrying the status-code error message, `pagesFailed = 1` and
`pagesSuccessful = 0`. -/
theorem claim_seed_fetch_error_recovered (env : CrawlEnv) (job : CrawlJob)
    (p : FetchedPage) (hfetch : env.fetch job.url = FetchOutcome.page p)
    (hnon2xx : p.statusCode < 200 ∨ 300 ≤ p.statusCode)
    (hmax : 0 < job.maxPages) :
    (Crawler.start env job).1.status = JobStatus.completed ∧
    (Crawler.start env job).2.pagesFailed = 1 ∧
    (Crawler.start env job).2.pagesSuccessful = 0 ∧
    (Crawler.start env job).2.results.map (fun r => r.error) =
      [some ("HTTP status code: " ++ toString p.statusCode)] := by
  have hs200 : p.statusCode ≠ 200 := by omega
  have hpu := Crawler.processUrl_non2xx env.fetch job.id job.url 0 none p hfetch hs200
  have hq0 : (Crawler.startState job).queue =
      ({ url := job.url, depth := 0, parentUrl := none } : QueueEntry) :: [] := rfl
  have hstep := Crawler.processQueue_proc env job (Crawler.startState job)
    { url := job.url, depth := 0, parentUrl := none } [] hq0 ⟨rfl, hmax⟩
    (List.not_mem_nil _)
  have hfin : Crawler.processQueue env job (Crawler.startState job) =
      Crawler.crawlIter env job { url := job.url, depth := 0, parentUrl := none } []
        (Crawler.startState job) := by
    rw [hstep]
    apply Crawler.processQueue_nil
    rw [Crawler.crawlIter_queue]
    simp [hpu]
  refine ⟨start_fst_status env job, ?_, ?_, ?_⟩
  · rw [start_snd_pagesFailed, hfin, Crawler.crawlIter_pagesFailed]
    simp [hpu, Crawler.startState, Crawler.initState]
  · rw [start_snd_pagesSuccessful, hfin, Crawler.crawlIter_pagesSuccessful]
    simp [hpu, Crawler.startState, Crawler.initState]
  · rw [start_snd_results, hfin, Crawler.crawlIter_results]
    simp [hpu, Crawler.startState, Crawler.initState]

/-- Claim C7 counterexample: `startCrawlJob` on the fixture job whose
status is `running` (not `pending`) returns with the rejection channel
`none` — no typed `InvalidState` error is surfaced to the caller, the
function just logs and returns — and the supervisor state is unchanged. -/
theorem claim_invalid_state_counterexample :
    startCrawlJob envNoResp stRunning "j1" = (stRunning, none) := rfl

/-- Claim C7 (amended): for every job whose status is not `pending`,
`startCrawlJob` is a logged no-op that returns normally: no error is
surfaced on the rejection channel, the job store, active map and result
store are unchanged, the job is not transitioned to `running`, and no
crawl is performed. -/
theorem claim_invalid_state_amended (env : CrawlEnv) (st : SupervisorState)
    (jobId : String) (job : CrawlJob)
    (hfind : findJobById st.jobs jobId = some job)
    (hstatus : job.status ≠ JobStatus.pending) :
    startCrawlJob env st jobId = (st, none) := by
  unfold startCrawlJob
  rw [hfind]
  simp [hstatus]

/-- Claim C8 counterexample: after `startCrawlJob` has run the pending
fixture job to its natural end — its JobStore record now carries the
terminal status `completed` — the job id is still registered in the
`activeCrawlers` map: the engine performs no completion cleanup. -/
theorem claim_completion_cleanup_counterexample :
    (findJobById (startCrawlJob envNoResp stPending "j1").1.jobs "j1").map
        (fun j => j.status) = some JobStatus.completed ∧
    (startCrawlJob envNoResp stPending "j1").1.activeCrawlers.contains "j1" = true := by
  constructor
  · show some (Crawler.start envNoResp { jobP with status := JobStatus.running }).1.status =
      some JobStatus.completed
    rw [start_fst_status]
  · rfl

/-- Claim C8 (amended): the `activeCrawlers` map is mutated only by
`startCrawlJob` (insert) and `stopCrawlJob` (remove); the engine performs
no cleanup of its own, so after `startCrawlJob` returns — the job's run
already finished — the job id is still registered, and only a
`stopCrawlJob` call removes it. -/
theorem claim_completion_cleanup_amended (env : CrawlEnv) (st : SupervisorState)
    (jobId : String) (job : CrawlJob)
    (hfind : findJobById st.jobs jobId = some job)
    (hpending : job.status = JobStatus.pending) :
    (startCrawlJob env st jobId).1.activeCrawlers.contains jobId = true ∧
    (stopCrawlJob st jobId).1.activeCrawlers.contains jobId = false := by
  constructor
  · unfold startCrawlJob
    rw [hfind]
    simp only [hpending, bne_self_eq_false, Bool.false_eq_true, if_false]
    exact mapSetKey_contains st.activeCrawlers jobId
  · unfold stopCrawlJob
    split
    · exact mapDeleteKey_contains st.activeCrawlers jobId
    · rename_i h
      simpa using h

/-- Claim C9: `Crawler.stop` is idempotent and leaves the running flag
false on any engine state (already stopped or never started included);
`stopCrawlJob` never raises an error to the caller and never creates,
deletes or modifies any CrawlResult record — unconditionally, for every
supervisor state and every job id, so in particular for an unknown job,
a never-started job, and a finished job that is still registered in
`activeCrawlers` (per the completion-cleanup correction a finished job
stays registered, so that case takes the delete branch): the rejection
channel is `none`, the ResultStore is unchanged, and the JobStore is
unchanged.  For a job id with no registered crawler the whole supervisor
state is untouched. -/
theorem claim_stop_idempotent_cancel_noop :
    (∀ s : CrawlerState,
      Crawler.stop (Crawler.stop s) = Crawler.stop s ∧ (Crawler.stop s).running = false) ∧
    (∀ st : SupervisorState, ∀ jobId : String,
      (stopCrawlJob st jobId).2 = none ∧
      (stopCrawlJob st jobId).1.resultStore = st.resultStore ∧
      (stopCrawlJob st jobId).1.jobs = st.jobs) ∧
    (∀ st : SupervisorState, ∀ jobId : String,
      st.activeCrawlers.contains jobId = false → stopCrawlJob st jobId = (st, none)) := by
  refine ⟨?_, ?_, ?_⟩
  · intro s
    exact ⟨rfl, rfl⟩
  · intro st jobId
    unfold stopCrawlJob
    split
    · exact ⟨rfl, rfl, rfl⟩
    · exact ⟨rfl, rfl, rfl⟩
  · intro st jobId h
    unfold stopCrawlJob
    rw [h]
    simp

/-- Claim C10: through `POST /api/crawler/jobs`, a request with
`depth = 0` creates a job with depth 2 and a request with `maxPages = 0`
creates a job with maxPages 100 (`||` replaces falsy values with the
defaults), so a depth-0 "seed page only" job cannot be requested through
the endpoint — even though the engine itself, given depth 0, crawls
exactly the seed page. -/
theorem claim_zero_depth_defaults (newId url : String) (dm : Option Nat)
    (hurl : url ≠ "") (env : CrawlEnv) (job : CrawlJob)
    (hdepth : job.depth = 0) (hmax : 0 < job.maxPages) :
    (∃ j : CrawlJob, createCrawlJobRequest newId url (some 0) dm = some j ∧ j.depth = 2) ∧
    (∃ j : CrawlJob, createCrawlJobRequest newId url dm (some 0) = some j ∧ j.maxPages = 100) ∧
    (Crawler.start env job).2.results.length = 1 ∧
    (∀ r ∈ (Crawler.start env job).2.results, r.depth = 0 ∧ r.url = job.url) := by
  have hq0 : (Crawler.startState job).queue =
      ({ url := job.url, depth := 0, parentUrl := none } : QueueEntry) :: [] := rfl
  have hstep := Crawler.processQueue_proc env job (Crawler.startState job)
    { url := job.url, depth := 0, parentUrl := none } [] hq0 ⟨rfl, hmax⟩
    (List.not_mem_nil _)
  have hfin : Crawler.processQueue env job (Crawler.startState job) =
      Crawler.crawlIter env job { url := job.url, depth := 0, parentUrl := none } []
        (Crawler.startState job) := by
    rw [hstep]
    apply Crawler.processQueue_nil
    rw [Crawler.crawlIter_queue]
    simp [hdepth]
  refine ⟨?_, ?_, ?_, ?_⟩
  · have hj : createCrawlJobRequest newId url (some 0) dm =
        some { id := newId, url := url, depth := 2, maxPages := jsNumOr dm 100,
               status := JobStatus.pending } := by
      simp [createCrawlJobRequest, jsNumOr, hurl]
    exact ⟨_, hj, rfl⟩
  · have hj : createCrawlJobRequest newId url dm (some 0) =
        some { id := newId, url := url, depth := jsNumOr dm 2, maxPages := 100,
               status := JobStatus.pending } := by
      simp [createCrawlJobRequest, jsNumOr, hurl]
    exact ⟨_, hj, rfl⟩
  · rw [start_snd_results, hfin, Crawler.crawlIter_results]
    simp [Crawler.startState, Crawler.initState]
  · intro r hr
    rw [start_snd_results, hfin, Crawler.crawlIter_results] at hr
    simp only [Crawler.startState, Crawler.initState, List.nil_append,
      List.mem_singleton] at hr
    subst hr
    exact ⟨Crawler.processUrl_depth env.fetch job.id job.url 0 none,
      Crawler.processUrl_url env.fetch job.id job.url 0 none⟩

/-- Witness for the depth-bound claim: a concrete run whose single seed
result is in the result list and respects the bound. -/
theorem claim_depth_bound_witness :
    resD0 ∈ (Crawler.start envNoResp jobD0).2.results ∧ resD0.depth ≤ jobD0.depth := by
  have hfin : Crawler.processQueue envNoResp jobD0 (Crawler.startState jobD0) =
      Crawler.crawlIter envNoResp jobD0
        { url := jobD0.url, depth := 0, parentUrl := none } []
        (Crawler.startState jobD0) := by
    rw [Crawler.processQueue_proc envNoResp jobD0 (Crawler.startState jobD0)
      { url := jobD0.url, depth := 0, parentUrl := none } [] rfl ⟨rfl, by decide⟩
      (List.not_mem_nil _)]
    exact Crawler.processQueue_nil _ _ _ rfl
  have hmem : resD0 ∈ (Crawler.start envNoResp jobD0).2.results := by
    rw [start_snd_results, hfin]
    decide
  exact ⟨hmem, claim_depth_bound envNoResp jobD0 resD0 hmem⟩

/-- Witness for the dedup claim: the third conjunct applied to a state
whose queue head is already visited. -/
theorem claim_result_per_attempt_dedup_witness :
    sVisitedHead.queue =
      ({ url := "https://seed.test/", depth := 0, parentUrl := none } : QueueEntry) :: [] ∧
    "https://seed.test/" ∈ sVisitedHead.visitedUrls ∧
    sVisitedHead.running = true ∧
    sVisitedHead.pagesProcessed < jobP.maxPages ∧
    Crawler.processQueue envNoResp jobP sVisitedHead =
      Crawler.processQueue envNoResp jobP { sVisitedHead with queue := [] } := by
  refine ⟨rfl, by decide, rfl, by decide, ?_⟩
  exact (claim_result_per_attempt_dedup envNoResp jobP).2.2 sVisitedHead
    { url := "https://seed.test/", depth := 0, parentUrl := none } [] rfl
    (by decide) rfl (by decide)

/-- Witness for the seed-fetch-error claim: the HTTP-500 environment on
the pending fixture job. -/
theorem claim_seed_fetch_error_recovered_witness :
    envServerError.fetch jobP.url = FetchOutcome.page page500 ∧
    (page500.statusCode < 200 ∨ 300 ≤ page500.statusCode) ∧
    0 < jobP.maxPages ∧
    ((Crawler.start envServerError jobP).1.status = JobStatus.completed ∧
     (Crawler.start envServerError jobP).2.pagesFailed = 1 ∧
     (Crawler.start envServerError jobP).2.pagesSuccessful = 0 ∧
     (Crawler.start envServerError jobP).2.results.map (fun r => r.error) =
       [some ("HTTP status code: " ++ toString page500.statusCode)]) :=
  ⟨rfl, by decide, by decide,
    claim_seed_fetch_error_recovered envServerError jobP page500 rfl (by decide) (by decide)⟩

/-- Witness for the amended invalid-state claim: the fixture store whose
only job is `running`. -/
theorem claim_invalid_state_amended_witness :
    findJobById stRunning.jobs "j1" = some { jobP with status := JobStatus.running } ∧
    ({ jobP with status := JobStatus.running } : CrawlJob).status ≠ JobStatus.pending ∧
    startCrawlJob envNoResp stRunning "j1" = (stRunning, none) :=
  ⟨rfl, by decide,
    claim_invalid_state_amended envNoResp stRunning "j1"
      { jobP with status := JobStatus.running } rfl (by decide)⟩

/-- Witness for the amended completion-cleanup claim: the pending fixture
job stays registered after its run; `stopCrawlJob` deregisters it. -/
theorem claim_completion_cleanup_amended_witness :
    findJobById stPending.jobs "j1" = some jobP ∧
    jobP.status = JobStatus.pending ∧
    ((startCrawlJob envNoResp stPending "j1").1.activeCrawlers.contains "j1" = true ∧
     (stopCrawlJob stPending "j1").1.activeCrawlers.contains "j1" = false) :=
  ⟨rfl, rfl, claim_completion_cleanup_amended envNoResp stPending "j1" jobP rfl rfl⟩

/-- Witness for the stop/cancel no-op claim: cancelling on the empty
supervisor state. -/
theorem claim_stop_idempotent_cancel_noop_witness :
    stEmpty.activeCrawlers.contains "j1" = false ∧
    stopCrawlJob stEmpty "j1" = (stEmpty, none) :=
  ⟨rfl, claim_stop_idempotent_cancel_noop.2.2 stEmpty "j1" rfl⟩

/-- Witness for the zero-depth defaults claim: a concrete request and the
depth-0 fixture job. -/
theorem claim_zero_depth_defaults_witness :
    ("https://seed.test/" : String) ≠ "" ∧ jobD0.depth = 0 ∧ 0 < jobD0.maxPages ∧
    ((∃ j : CrawlJob,
        createCrawlJobRequest "id0" "https://seed.test/" (some 0) none = some j ∧
        j.depth = 2) ∧
     (∃ j : CrawlJob,
        createCrawlJobRequest "id0" "https://seed.test/" none (some 0) = some j ∧
        j.maxPages = 100) ∧
     (Crawler.start envNoResp jobD0).2.results.length = 1 ∧
     (∀ r ∈ (Crawler.start envNoResp jobD0).2.results, r.depth = 0 ∧ r.url = jobD0.url)) :=
  ⟨by decide, rfl, by decide,
    claim_zero_depth_defaults "id0" "https://seed.test/" none (by decide) envNoResp jobD0
      rfl (by decide)⟩

namespace Crawler

theorem tagFrom_map_entry (n : Nat) (es : List QueueEntry) :
    (tagFrom n es).map (fun t => t.entry) = es := by
  induction es generalizing n with
  | nil => rfl
  | cons e es ih => simp [tagFrom, ih]

theorem tagFrom_seq_ge (n : Nat) (es : List QueueEntry) :
    ∀ t ∈ tagFrom n es, n ≤ t.seq := by
  induction es generalizing n with
  | nil =>
    intro t ht
    exact absurd ht (List.not_mem_nil t)
  | cons e es ih =>
    intro t ht
    rw [tagFrom, List.mem_cons] at ht
    rcases ht with rfl | ht
    · exact Nat.le_refl n
    · have := ih (n + 1) t ht
      omega

theorem tagFrom_seq_lt (n : Nat) (es : List QueueEntry) :
    ∀ t ∈ tagFrom n es, t.seq < n + es.length := by
  induction es generalizing n with
  | nil =>
    intro t ht
    exact absurd ht (List.not_mem_nil t)
  | cons e es ih =>
    intro t ht
    rw [tagFrom, List.mem_cons] at ht
    rcases ht with rfl | ht
    · simp
    · have := ih (n + 1) t ht
      simp only [List.length_cons]
      omega

theorem tagFrom_pairwise (n : Nat) (es : List QueueEntry) :
    (tagFrom n es).Pairwise (fun a b => a.seq < b.seq) := by
  induction es generalizing n with
  | nil => exact List.Pairwise.nil
  | cons e es ih =>
    rw [tagFrom, List.pairwise_cons]
    refine ⟨?_, ih (n + 1)⟩
    intro t ht
    have := tagFrom_seq_ge (n + 1) es t ht
    show n < t.seq
    omega

@[simp] theorem ghostIter_queue (env : CrawlEnv) (job : CrawlJob) (te : TaggedEntry)
    (rest : List TaggedEntry) (g : GhostState) :
    (ghostIter env job te rest g).queue =
      rest ++ tagFrom g.nextSeq (ghostNewEntries env job te g) := rfl

@[simp] theorem ghostIter_results (env : CrawlEnv) (job : CrawlJob) (te : TaggedEntry)
    (rest : List TaggedEntry) (g : GhostState) :
    (ghostIter env job te rest g).results =
      g.results ++
        [{ result := (processUrl env.fetch job.id te.entry.url te.entry.depth te.entry.parentUrl).1,
           seq := te.seq }] := rfl

@[simp] theorem ghostIter_nextSeq (env : CrawlEnv) (job : CrawlJob) (te : TaggedEntry)
    (rest : List TaggedEntry) (g : GhostState) :
    (ghostIter env job te rest g).nextSeq =
      g.nextSeq + (ghostNewEntries env job te g).length := rfl

theorem ghostQueue_nil (env : CrawlEnv) (job : CrawlJob) (g : GhostState)
    (h : g.queue = []) : ghostQueue env job g = g := by
  rw [ghostQueue]
  split
  · rfl
  · rename_i te rest hq
    rw [h] at hq
    exact absurd hq (by simp)

theorem ghostQueue_halt (env : CrawlEnv) (job : CrawlJob) (g : GhostState)
    (te : TaggedEntry) (rest : List TaggedEntry) (h : g.queue = te :: rest)
    (hrun : ¬(g.running = true ∧ g.pagesProcessed < job.maxPages)) :
    ghostQueue env job g = g := by
  rw [ghostQueue]
  split
  · rfl
  · rename_i te' rest' hq
    rw [h] at hq
    cases hq
    rw [dif_neg hrun]

theorem ghostQueue_skip (env : CrawlEnv) (job : CrawlJob) (g : GhostState)
    (te : TaggedEntry) (rest : List TaggedEntry) (h : g.queue = te :: rest)
    (hrun : g.running = true ∧ g.pagesProcessed < job.maxPages)
    (hvis : te.entry.url ∈ g.visitedUrls) :
    ghostQueue env job g = ghostQueue env job { g with queue := rest } := by
  rw [ghostQueue]
  split
  · rename_i hq
    rw [h] at hq
    exact absurd hq.symm (by simp)
  · rename_i te' rest' hq
    rw [h] at hq
    cases hq
    rw [dif_pos hrun, if_pos hvis]

theorem ghostQueue_proc (env : CrawlEnv) (job : CrawlJob) (g : GhostState)
    (te : TaggedEntry) (rest : List TaggedEntry) (h : g.queue = te :: rest)
    (hrun : g.running = true ∧ g.pagesProcessed < job.maxPages)
    (hvis : te.entry.url ∉ g.visitedUrls) :
    ghostQueue env job g = ghostQueue env job (ghostIter env job te rest g) := by
  rw [ghostQueue]
  split
  · rename_i hq
    rw [h] at hq
    exact absurd hq.symm (by simp)
  · rename_i te' rest' hq
    rw [h] at hq
    cases hq
    rw [dif_pos hrun, if_neg hvis]

/-- Erasing the ghost indices after one loop-body step is the real
loop-body step on the erased state. -/
theorem erase_ghostIter (env : CrawlEnv) (job : CrawlJob) (te : TaggedEntry)
    (rest : List TaggedEntry) (g : GhostState) :
    (ghostIter env job te rest g).erase =
      crawlIter env job te.entry (rest.map (fun t => t.entry)) g.erase := by
  simp [ghostIter, crawlIter, ghostNewEntries, GhostState.erase,
    tagFrom_map_entry, List.map_append]

/-- Simulation: the ghost-instrumented loop erases to the real loop. -/
theorem erase_ghostQueue (env : CrawlEnv) (job : CrawlJob) :
    ∀ g : GhostState, (ghostQueue env job g).erase = processQueue env job g.erase := by
  intro g
  induction g using ghostQueue.induct env job with
  | case1 g hq =>
    rw [ghostQueue_nil env job g hq,
      processQueue_nil env job g.erase (by simp [GhostState.erase, hq])]
  | case2 g te rest hq hrun hvis ih =>
    rw [ghostQueue_skip env job g te rest hq hrun hvis,
      processQueue_skip env job g.erase te.entry (rest.map (fun t => t.entry))
        (by simp [GhostState.erase, hq]) hrun hvis]
    exact ih
  | case3 g te rest hq hrun hvis ih =>
    rw [ghostQueue_proc env job g te rest hq hrun hvis,
      processQueue_proc env job g.erase te.entry (rest.map (fun t => t.entry))
        (by simp [GhostState.erase, hq]) hrun hvis]
    rw [ih, erase_ghostIter]
  | case4 g te rest hq hrun =>
    rw [ghostQueue_halt env job g te rest hq hrun,
      processQueue_halt env job g.erase te.entry (rest.map (fun t => t.entry))
        (by simp [GhostState.erase, hq]) hrun]

theorem ghostInv_tail (g : GhostState) (te : TaggedEntry) (rest : List TaggedEntry)
    (inv : GhostInv g) (hq : g.queue = te :: rest) :
    GhostInv { g with queue := rest } := by
  have hmem : ∀ x ∈ rest, x ∈ g.queue := by
    intro x hx
    rw [hq]
    exact List.mem_cons_of_mem _ hx
  refine ⟨?_, ?_, inv.results_seq_sorted, ?_, inv.results_seq_lt⟩
  · have := inv.queue_seq_sorted
    rw [hq] at this
    exact (List.pairwise_cons.mp this).2
  · intro t ht
    exact inv.queue_seq_lt t (hmem t ht)
  · intro r hr t ht
    exact inv.results_lt_queue r hr t (hmem t ht)

/-- Core ghost step lemma: dequeuing the tagged head `te`, persisting one
result carrying `te.seq`, and pushing `NE` tagged from the next free
index preserves the ghost invariant. -/
theorem ghostInv_step (g h : GhostState) (te : TaggedEntry)
    (rest : List TaggedEntry) (NE : List QueueEntry)
    (r : CrawlResult) (inv : GhostInv g) (hq : g.queue = te :: rest)
    (hh_queue : h.queue = rest ++ tagFrom g.nextSeq NE)
    (hh_results : h.results = g.results ++ [{ result := r, seq := te.seq }])
    (hh_next : h.nextSeq = g.nextSeq + NE.length) :
    GhostInv h := by
  have hte : te ∈ g.queue := by
    rw [hq]
    exact List.mem_cons_self _ _
  have hrest : ∀ x ∈ rest, x ∈ g.queue := by
    intro x hx
    rw [hq]
    exact List.mem_cons_of_mem _ hx
  have hsorted := inv.queue_seq_sorted
  rw [hq, List.pairwise_cons] at hsorted
  constructor
  · rw [hh_queue, List.pairwise_append]
    refine ⟨hsorted.2, tagFrom_pairwise g.nextSeq NE, ?_⟩
    intro a ha b hb
    have h1 := inv.queue_seq_lt a (hrest a ha)
    have h2 := tagFrom_seq_ge g.nextSeq NE b hb
    omega
  · rw [hh_queue, hh_next]
    intro t ht
    rcases List.mem_append.mp ht with h' | h'
    · have := inv.queue_seq_lt t (hrest t h')
      omega
    · exact tagFrom_seq_lt g.nextSeq NE t h'
  · rw [hh_results, List.pairwise_append]
    refine ⟨inv.results_seq_sorted, by simp, ?_⟩
    intro a ha b hb
    simp only [List.mem_singleton] at hb
    subst hb
    exact inv.results_lt_queue a ha te hte
  · rw [hh_results, hh_queue]
    intro r' hr' t ht
    rcases List.mem_append.mp hr' with h1 | h1 <;>
      rcases List.mem_append.mp ht with h2 | h2
    · exact inv.results_lt_queue r' h1 t (hrest t h2)
    · have ha := inv.results_seq_lt r' h1
      have hb := tagFrom_seq_ge g.nextSeq NE t h2
      omega
    · simp only [List.mem_singleton] at h1
      subst h1
      exact hsorted.1 t h2
    · simp only [List.mem_singleton] at h1
      subst h1
      have ha := inv.queue_seq_lt te hte
      have hb := tagFrom_seq_ge g.nextSeq NE t h2
      show te.seq < t.seq
      omega
  · rw [hh_results, hh_next]
    intro r' hr'
    rcases List.mem_append.mp hr' with h1 | h1
    · have := inv.results_seq_lt r' h1
      omega
    · simp only [List.mem_singleton] at h1
      subst h1
      have := inv.queue_seq_lt te hte
      show te.seq < g.nextSeq + NE.length
      omega

/-- A processed ghost iteration preserves the ghost invariant. -/
theorem ghostIter_inv (env : CrawlEnv) (job : CrawlJob) (te : TaggedEntry)
    (rest : List TaggedEntry) (g : GhostState)
    (inv : GhostInv g) (hq : g.queue = te :: rest) :
    GhostInv (ghostIter env job te rest g) :=
  ghostInv_step g (ghostIter env job te rest g) te rest
    (ghostNewEntries env job te g)
    (processUrl env.fetch job.id te.entry.url te.entry.depth te.entry.parentUrl).1
    inv hq (ghostIter_queue env job te rest g) (ghostIter_results env job te rest g)
    (ghostIter_nextSeq env job te rest g)

/-- `ghostQueue` preserves the ghost invariant. -/
theorem ghostQueue_inv (env : CrawlEnv) (job : CrawlJob) (g : GhostState)
    (inv : GhostInv g) : GhostInv (ghostQueue env job g) := by
  induction g using ghostQueue.induct env job with
  | case1 g hq =>
    rw [ghostQueue_nil env job g hq]
    exact inv
  | case2 g te rest hq hrun hvis ih =>
    rw [ghostQueue_skip env job g te rest hq hrun hvis]
    exact ih (ghostInv_tail g te rest inv hq)
  | case3 g te rest hq hrun hvis ih =>
    rw [ghostQueue_proc env job g te rest hq hrun hvis]
    exact ih (ghostIter_inv env job te rest g inv hq)
  | case4 g te rest hq hrun =>
    rw [ghostQueue_halt env job g te rest hq hrun]
    exact inv

/-- The ghost invariant holds at the top of the loop. -/
theorem ghostStartState_inv (job : CrawlJob) : GhostInv (ghostStartState job) := by
  constructor <;> simp [ghostStartState]

end Crawler

/-- Claim C5: results are persisted in breadth-first FIFO order.  First
conjunct (cross-depth): the depth fields of the persisted results are
non-decreasing in persist order, so if `d_A < d_B` then A was persisted
no later than B.  The remaining conjuncts give the enqueue-order half
via ghost enqueue indices: `ghostQueue` runs the very same loop (the
second conjunct states that its tagged results erase to exactly the real
run's results, in the same order) while tagging every queue entry with
the index of the enqueue event that pushed it (`shift` from the front,
`push` at the back, seed = event 0), and the third conjunct shows the
persisted results carry strictly increasing enqueue indices: results —
same-depth ones in particular — are persisted exactly in the order their
URLs were enqueued. -/
theorem claim_bfs_order (env : CrawlEnv) (job : CrawlJob) :
    (Crawler.start env job).2.results.Pairwise (fun a b => a.depth ≤ b.depth) ∧
    ((Crawler.ghostQueue env job (Crawler.ghostStartState job)).results.map
        (fun t => t.result) =
      (Crawler.start env job).2.results) ∧
    (Crawler.ghostQueue env job (Crawler.ghostStartState job)).results.Pairwise
      (fun a b => a.seq < b.seq) := by
  refine ⟨?_, ?_, ?_⟩
  · rw [start_snd_results]
    exact (start_inv env job).results_sorted
  · have h := Crawler.erase_ghostQueue env job (Crawler.ghostStartState job)
    have h2 : (Crawler.ghostStartState job).erase = Crawler.startState job := rfl
    rw [h2] at h
    have h3 : (Crawler.ghostQueue env job (Crawler.ghostStartState job)).results.map
        (fun t => t.result) =
        ((Crawler.ghostQueue env job (Crawler.ghostStartState job)).erase).results := rfl
    rw [h3, h, start_snd_results]
  · exact (Crawler.ghostQueue_inv env job (Crawler.ghostStartState job)
      (Crawler.ghostStartState_inv job)).results_seq_sorted
